import Mathlib

/-!
mole: filter/search engine and request store, a shallow embedding

This file embeds the core of the `mole` ngrok traffic inspector in Lean 4:
the filter engine (`matchesFilter`, `matchesAllFilters`, `compareStringOp`,
`compareDuration`, `compareSize`, `getHeaderValue`), the search engine
(`matchesSearch`), the visible-set computation (`applyFilters`), the body
decoding helpers (`goBase64Decode`, `HTTPData.DecodeBody`,
`Request.StatusCode`, `Request.ResponseSize`, `Request.DurationMs`) and the
SQLite-backed request store (`Storage.SaveRequest`, `Storage.ToggleStar`,
`Storage.IsStarred`, `Storage.Cleanup`).

Modelling conventions:
* Go strings are Lean `String`s; `len` is the character count (faithful to
  Go's byte length on single-byte text, which is all the theorems use).
* Go's Unicode-aware `strings.ToLower` is modelled by Lean's ASCII
  `String.toLower`.
* `float64` values are modelled exactly: finite values as rationals plus
  explicit NaN/±Inf constructors (`GoFloat`); rounding and overflow of the
  binary format are idealized away (no claim depends on them).
* Go maps (`map[string][]string` headers) are association lists scanned in
  list order; Go's randomized map iteration order makes any fixed order a
  legitimate refinement.
* Time (`time.Time`) is an integer count of milliseconds; `AddDate(0,0,-d)`
  is subtraction of `d * 86400000`.
* SQL tables are lists of rows; `ORDER BY timestamp DESC LIMIT k` is a
  stable insertion sort followed by `take k`.
-/

namespace Mole

/-! ## Go string helpers -/

/-- `strings.Contains` on exploded strings: `sub` occurs inside `l`. -/
def listContainsSub (l sub : List Char) : Bool :=
  match l with
  | [] => sub.isEmpty
  | _ :: t => sub.isPrefixOf l || listContainsSub t sub

/-- `strings.Contains s sub`. -/
def goContains (s sub : String) : Bool :=
  listContainsSub s.toList sub.toList

/-- `strings.Index` on exploded strings: index of the first occurrence of
`pat` in `l`, or `none`. -/
def listIndexOfSub (l pat : List Char) : Option Nat :=
  match l with
  | [] => if pat.isEmpty then some 0 else none
  | _ :: t => if pat.isPrefixOf l then some 0 else (listIndexOfSub t pat).map (· + 1)

/-- `strings.Index s pat` (`none` plays the role of Go's `-1`). -/
def goIndex (s pat : String) : Option Nat :=
  listIndexOfSub s.toList pat.toList

/-- `strings.ToLower` (ASCII model). -/
def goToLower (s : String) : String :=
  String.mk (s.toList.map Char.toLower)

/-- `strings.HasPrefix`. -/
def goStartsWith (pre s : String) : Bool :=
  pre.toList.isPrefixOf s.toList

/-- ASCII whitespace recognised by `strings.TrimSpace`. -/
def isSpaceChar (c : Char) : Bool :=
  c = ' ' || c = '\t' || c = '\n' || c = '\r' || c = '\x0b' || c = '\x0c'

/-- `strings.TrimSpace`. -/
def goTrimSpace (s : String) : String :=
  String.mk (((s.toList.dropWhile isSpaceChar).reverse.dropWhile isSpaceChar).reverse)

/-- Drop the first `n` characters of a string (Go slice `s[n:]`). -/
def goDrop (s : String) (n : Nat) : String :=
  String.mk (s.toList.drop n)

/-- Split `l` at the first occurrence of the character `sep`, if any. -/
def splitOnFirst (sep : Char) : List Char → Option (List Char × List Char)
  | [] => none
  | c :: t =>
    if c = sep then some ([], t)
    else (splitOnFirst sep t).map (fun p => (c :: p.1, p.2))

/-- `strings.SplitN` with a single-character separator (`n ≥ 1`): at most `n`
parts, the last part keeping the remainder verbatim. -/
def goSplitNChar (sep : Char) : Nat → List Char → List (List Char)
  | 0, _ => []
  | 1, l => [l]
  | Nat.succ n, l =>
    match splitOnFirst sep l with
    | none => [l]
    | some (a, b) => a :: goSplitNChar sep n b

/-! ## Go base64 (`encoding/base64`) -/

/-- Index of a character in the base64 alphabet (`url = true` selects the
URL-safe alphabet), `none` for characters outside the alphabet. -/
def b64CharIndex (url : Bool) (c : Char) : Option Nat :=
  if 'A' ≤ c ∧ c ≤ 'Z' then some (c.toNat - 65)
  else if 'a' ≤ c ∧ c ≤ 'z' then some (c.toNat - 97 + 26)
  else if '0' ≤ c ∧ c ≤ '9' then some (c.toNat - 48 + 52)
  else if c = (if url then '-' else '+') then some 62
  else if c = (if url then '_' else '/') then some 63
  else none

/-- Decode whole base64 quantums (input already stripped of CR/LF).  Padded
encoding: a trailing quantum of the shapes `xx==` / `xxx=` must end the
input; anything else that is not a run of 4-character quantums is a decode
error, as in Go's non-strict `DecodeString`. -/
def b64DecodeLoop (url : Bool) : List Char → Option (List Nat)
  | [] => some []
  | c1 :: c2 :: c3 :: c4 :: rest =>
    match b64CharIndex url c1, b64CharIndex url c2 with
    | some i1, some i2 =>
      if c3 = '=' then
        if c4 = '=' && rest.isEmpty then some [i1 * 4 + i2 / 16]
        else none
      else
        match b64CharIndex url c3 with
        | some i3 =>
          if c4 = '=' then
            if rest.isEmpty then some [i1 * 4 + i2 / 16, (i2 % 16) * 16 + i3 / 4]
            else none
          else
            match b64CharIndex url c4 with
            | some i4 =>
              (b64DecodeLoop url rest).map
                (fun bs => (i1 * 4 + i2 / 16) :: ((i2 % 16) * 16 + i3 / 4) ::
                  ((i3 % 4) * 64 + i4) :: bs)
            | none => none
        | none => none
    | _, _ => none
  | _ => none

/-- `base64.StdEncoding.DecodeString` / `base64.URLEncoding.DecodeString`:
CR/LF are skipped anywhere, then whole quantums are decoded.  Decoded bytes
are rendered as a string of code points `0..255`. -/
def goBase64Decode (url : Bool) (s : String) : Option String :=
  (b64DecodeLoop url (s.toList.filter (fun c => !(c = '\r' || c = '\n')))).map
    (fun bs => String.mk (bs.map Char.ofNat))

/-! ## ngrok captured-request types (`internal/ngrok/types.go`) -/

/-- `HTTPData`: one side (request or response) of a captured HTTP
transaction.  Headers are the JSON multimap `map[string][]string`, modelled
as an association list. -/
structure HTTPData where
  method : String
  headers : List (String × List String)
  uri : String
  raw : String
  statusCode : Int
  status : String
  deriving Repr, DecidableEq

/-- `Request`: a captured HTTP transaction. `duration` is in nanoseconds. -/
structure Request where
  uri : String
  id : String
  duration : Int
  request : HTTPData
  response : HTTPData
  responseStatus : String
  deriving Repr, DecidableEq

/-- Body extraction step of `DecodeBody`: the decoded raw HTTP message is
cut after the first `"\r\n\r\n"` (else the first `"\n\n"`) separator and the
remainder trimmed; with no separator the whole content is returned. -/
def extractBody (raw : String) : String :=
  match goIndex raw "\r\n\r\n" with
  | some i => goTrimSpace (goDrop raw (i + 4))
  | none =>
    match goIndex raw "\n\n" with
    | some i => goTrimSpace (goDrop raw (i + 2))
    | none => raw

/-- `HTTPData.DecodeBody`: decode the base64 `raw` field (standard then
URL-safe alphabet) and extract the body; if neither decoding succeeds the
raw value is returned as-is. -/
def HTTPData.DecodeBody (h : HTTPData) : String :=
  if h.raw = "" then ""
  else
    match goBase64Decode false h.raw with
    | some s => extractBody s
    | none =>
      match goBase64Decode true h.raw with
      | some s => extractBody s
      | none => h.raw

/-- The digit-accumulating loop of `Request.StatusCode` over the first
three characters of a status line such as `"200 OK"` (non-digits are
skipped, not rejected). -/
def statusDigits3 (s : String) : Int :=
  (s.toList.take 3).foldl
    (fun code c => if '0' ≤ c ∧ c ≤ '9' then code * 10 + (c.toNat - 48 : Int) else code) 0

/-- The digit-accumulating loop of `Request.StatusCode` over all characters
of a token (non-digits are skipped). -/
def statusDigitsAll (l : List Char) : Int :=
  l.foldl (fun code c => if '0' ≤ c ∧ c ≤ '9' then code * 10 + (c.toNat - 48 : Int) else code) 0

/-- Fallback of `Request.StatusCode`: parse the code out of the first line
of the base64-decoded raw response (`"HTTP/1.1 200 OK"`). -/
def statusFromRaw (raw : String) : Int :=
  if raw = "" then 0
  else
    match goBase64Decode false raw with
    | none => 0
    | some decoded =>
      let line :=
        match goIndex decoded "\n" with
        | some idx => if 0 < idx then String.mk (decoded.toList.take idx) else decoded
        | none => decoded
      let parts := goSplitNChar ' ' 3 line.toList
      if 2 ≤ parts.length then
        let code := statusDigitsAll (parts.get! 1)
        if 0 < code then code else 0
      else 0

/-- `Request.StatusCode`: the numeric status code, tried in order from
`Response.StatusCode`, `ResponseStatus`, `Response.Status`, and finally the
first line of the decoded raw response; `0` when all fail. -/
def Request.StatusCode (r : Request) : Int :=
  if 0 < r.response.statusCode then r.response.statusCode
  else if 3 ≤ r.responseStatus.length ∧ 0 < statusDigits3 r.responseStatus then
    statusDigits3 r.responseStatus
  else if 3 ≤ r.response.status.length ∧ 0 < statusDigits3 r.response.status then
    statusDigits3 r.response.status
  else statusFromRaw r.response.raw

/-- `Request.DurationMs`: nanoseconds to (exact) milliseconds. -/
def Request.DurationMs (r : Request) : ℚ :=
  (r.duration : ℚ) / 1000000

/-- `Request.ResponseSize`: length of the decoded response body. -/
def Request.ResponseSize (r : Request) : Nat :=
  (r.response.DecodeBody).length

/-! ## `strconv.ParseFloat` (domain-faithful, value idealized as exact ℚ) -/

/-- A Go `float64` result: NaN, signed infinity, or a finite value
(idealized as an exact rational; binary rounding and overflow are not
modelled — no theorem in this file depends on them). -/
inductive GoFloat where
  | nan : GoFloat
  | inf (neg : Bool) : GoFloat
  | num (q : ℚ) : GoFloat
  deriving Repr, DecidableEq

/-- Decimal digit? -/
def isDigitChar (c : Char) : Bool := '0' ≤ c && c ≤ '9'

/-- Hexadecimal digit? -/
def isHexDigitChar (c : Char) : Bool :=
  isDigitChar c || ('a' ≤ c && c ≤ 'f') || ('A' ≤ c && c ≤ 'F')

/-- Value of a hexadecimal digit. -/
def hexDigitVal (c : Char) : Nat :=
  if isDigitChar c then c.toNat - 48
  else if 'a' ≤ c && c ≤ 'f' then c.toNat - 97 + 10
  else if 'A' ≤ c && c ≤ 'F' then c.toNat - 65 + 10
  else 0

/-- State of Go's `underscoreOK` scan: nothing seen yet / last was a digit /
last was an underscore / last was something else. -/
inductive USaw where
  | start | digit | under | other
  deriving DecidableEq

/-- The scanning loop of Go's `underscoreOK`: every underscore must be
preceded and followed by a digit. -/
def underscoreLoop (hex : Bool) : USaw → List Char → Bool
  | saw, [] => !(saw = USaw.under)
  | saw, c :: t =>
    if (if hex then isHexDigitChar c else isDigitChar c) then underscoreLoop hex USaw.digit t
    else if c = '_' then (saw = USaw.digit : Bool) && underscoreLoop hex USaw.under t
    else if saw = USaw.under then false
    else underscoreLoop hex USaw.other t

/-- Go's `underscoreOK`: underscores are digit separators; after a `0x`/`0X`
base marker the digit set is hexadecimal and an underscore may follow the
marker. -/
def underscoreOK (l : List Char) : Bool :=
  let l1 := match l with
    | c :: t => if c = '+' || c = '-' then t else l
    | [] => l
  match l1 with
  | '0' :: x :: t =>
    if x = 'x' || x = 'X' then underscoreLoop true USaw.digit t
    else underscoreLoop false USaw.start l1
  | _ => underscoreLoop false USaw.start l1

/-- Digit string to value in the given base. -/
def digitsToNat (base : Nat) (l : List Char) : Nat :=
  l.foldl (fun n c => n * base + hexDigitVal c) 0

/-- Parse an optional exponent sign followed by at least one decimal digit. -/
def parseExpDigits (l : List Char) : Option Int :=
  let (neg, l1) : Bool × List Char :=
    match l with
    | '+' :: t => (false, t)
    | '-' :: t => (true, t)
    | _ => (false, l)
  if l1 ≠ [] ∧ l1.all isDigitChar then
    some (if neg then -(digitsToNat 10 l1 : Int) else (digitsToNat 10 l1 : Int))
  else none

/-- Parse an unsigned decimal mantissa with optional fraction and optional
`e`/`E` exponent (underscores already removed): Go's `readFloat`, decimal
case. -/
def parseDecNumber (l : List Char) : Option ℚ :=
  let intD := l.takeWhile isDigitChar
  let rest := l.dropWhile isDigitChar
  let (fracD, rest2) : List Char × List Char :=
    match rest with
    | '.' :: r => (r.takeWhile isDigitChar, r.dropWhile isDigitChar)
    | _ => ([], rest)
  if intD = [] ∧ fracD = [] then none
  else
    let mant : ℚ := (digitsToNat 10 (intD ++ fracD) : ℚ) / (10 : ℚ) ^ fracD.length
    match rest2 with
    | [] => some mant
    | e :: r =>
      if e = 'e' || e = 'E' then
        (parseExpDigits r).map (fun ex => mant * (10 : ℚ) ^ ex)
      else none

/-- Parse an unsigned hexadecimal mantissa with optional fraction and
mandatory `p`/`P` binary exponent (underscores already removed): Go's
`readFloat`, hexadecimal case. -/
def parseHexNumber (l : List Char) : Option ℚ :=
  let intD := l.takeWhile isHexDigitChar
  let rest := l.dropWhile isHexDigitChar
  let (fracD, rest2) : List Char × List Char :=
    match rest with
    | '.' :: r => (r.takeWhile isHexDigitChar, r.dropWhile isHexDigitChar)
    | _ => ([], rest)
  if intD = [] ∧ fracD = [] then none
  else
    let mant : ℚ := (digitsToNat 16 (intD ++ fracD) : ℚ) / (16 : ℚ) ^ fracD.length
    match rest2 with
    | p :: r =>
      if p = 'p' || p = 'P' then
        (parseExpDigits r).map (fun ex => mant * (2 : ℚ) ^ ex)
      else none
    | [] => none

/-- Lower-case a character list (ASCII). -/
def lowerList (l : List Char) : List Char := l.map Char.toLower

/-- `strconv.ParseFloat` on the full string: the special values
`nan`, `[±]inf`, `[±]infinity` (case-insensitive), otherwise a decimal or
`0x` hexadecimal number, with Go's underscore placement rule.  `none`
whenever Go reports a malformed number. -/
def goParseFloat (s : String) : Option GoFloat :=
  let l := s.toList
  if l = [] then none
  else if lowerList l = ['n', 'a', 'n'] then some GoFloat.nan
  else
    let (neg, l1) : Bool × List Char :=
      match l with
      | '+' :: t => (false, t)
      | '-' :: t => (true, t)
      | _ => (false, l)
    if lowerList l1 = ['i', 'n', 'f'] ∨
       lowerList l1 = ['i', 'n', 'f', 'i', 'n', 'i', 't', 'y'] then
      some (GoFloat.inf neg)
    else if l.contains '_' ∧ ¬underscoreOK l then none
    else
      let signed (q : ℚ) : GoFloat := GoFloat.num (if neg then -q else q)
      match l1 with
      | '0' :: x :: t =>
        if x = 'x' || x = 'X' then (parseHexNumber (t.filter (· ≠ '_'))).map signed
        else (parseDecNumber (l1.filter (· ≠ '_'))).map signed
      | _ => (parseDecNumber (l1.filter (· ≠ '_'))).map signed

/-- `compareFloat`: numeric comparison dispatch on the operator string;
NaN compares false under every operator, infinities as in IEEE; an unknown
operator yields `false`. -/
def compareFloatOp (val : ℚ) (op : String) (target : GoFloat) : Bool :=
  match target with
  | GoFloat.nan => false
  | GoFloat.inf neg =>
    if op = ">" then neg
    else if op = "<" then !neg
    else if op = ">=" then neg
    else if op = "<=" then !neg
    else false
  | GoFloat.num q =>
    if op = ">" then (q < val : Bool)
    else if op = "<" then (val < q : Bool)
    else if op = ">=" then (q ≤ val : Bool)
    else if op = "<=" then (val ≤ q : Bool)
    else false

/-- Multiply a parsed target by a (positive) unit factor. -/
def gfScale (t : GoFloat) (k : ℚ) : GoFloat :=
  match t with
  | GoFloat.nan => GoFloat.nan
  | GoFloat.inf n => GoFloat.inf n
  | GoFloat.num q => GoFloat.num (q * k)

/-! ## Filter engine (`internal/tui`, filter evaluation) -/

/-- An active filter: `Field`, `Operator`, optional `Unit` for numeric
fields, raw `Value` literal, and the `LogicalOperator` (`"&&"` / `"||"`)
linking to the *next* filter. -/
structure Filter where
  field : String
  operator : String
  unit : String
  value : String
  logicalOperator : String
  deriving Repr, DecidableEq

/-- `compareStringOp`: `==` / `!=` are exact string (in)equality; `match` /
`!match` are case-insensitive substring containment and its negation; an
unknown operator yields `false`. -/
def compareStringOp (val op target : String) : Bool :=
  if op = "==" then (val = target : Bool)
  else if op = "!=" then (val ≠ target : Bool)
  else if op = "match" then goContains (goToLower val) (goToLower target)
  else if op = "!match" then !goContains (goToLower val) (goToLower target)
  else false

/-- `compareDuration`: parse the literal, convert to milliseconds by unit
(`ms`/`s`/`m`/`h`/`d`, anything else treated as `ms`), then compare; a
literal that fails to parse yields `false`. -/
def compareDuration (valMs : ℚ) (op unit target : String) : Bool :=
  match goParseFloat target with
  | none => false
  | some t =>
    let factor : ℚ :=
      if unit = "ms" then 1
      else if unit = "s" then 1000
      else if unit = "m" then 60 * 1000
      else if unit = "h" then 60 * 60 * 1000
      else if unit = "d" then 24 * 60 * 60 * 1000
      else 1
    compareFloatOp valMs op (gfScale t factor)

/-- `compareSize`: parse the literal, convert to bytes by unit
(`b`/`kb`/`mb`, anything else treated as `b`), then compare; a literal that
fails to parse yields `false`. -/
def compareSize (valBytes : Nat) (op unit target : String) : Bool :=
  match goParseFloat target with
  | none => false
  | some t =>
    let factor : ℚ :=
      if unit = "b" then 1
      else if unit = "kb" then 1024
      else if unit = "mb" then 1024 * 1024
      else 1
    compareFloatOp (valBytes : ℚ) op (gfScale t factor)

/-- `getHeaderValue`: case-insensitive scan of the request headers; the
first key that lower-cases to the (lower-cased) wanted name and has at
least one value contributes its first value; otherwise the empty string. -/
def getHeaderValue (headers : List (String × List String)) (headerName : String) : String :=
  let hn := goToLower headerName
  match headers.find? (fun p => goToLower p.1 = hn ∧ p.2 ≠ []) with
  | some p => p.2.headI
  | none => ""

/-- `matchesFilter`: dispatch one filter on its field; `status` and `path`
go to the string comparator, `duration` and `response_size` to the numeric
comparators, `header.<name>` to the header lookup, and any other field
matches unconditionally. -/
def matchesFilter (req : Request) (f : Filter) : Bool :=
  if f.field = "status" then
    compareStringOp (toString req.StatusCode) f.operator f.value
  else if f.field = "path" then
    compareStringOp req.request.uri f.operator f.value
  else if f.field = "duration" then
    compareDuration req.DurationMs f.operator f.unit f.value
  else if f.field = "response_size" then
    compareSize req.ResponseSize f.operator f.unit f.value
  else if goStartsWith "header." f.field then
    compareStringOp (getHeaderValue req.request.headers (goDrop f.field 7))
      f.operator f.value
  else true

/-- The loop of `matchesAllFilters`: `acc` is the result so far, `prev` the
previous filter, whose logical operator links it to the next one (`"||"`
means OR, anything else means AND). -/
def chainLoop (req : Request) (acc : Bool) (prev : Filter) : List Filter → Bool
  | [] => acc
  | f :: t =>
    chainLoop req
      (if prev.logicalOperator = "||" then acc || matchesFilter req f
       else acc && matchesFilter req f)
      f t

/-- `matchesAllFilters`: the empty chain matches everything; otherwise the
left-to-right AND/OR loop starting from the first filter's result. -/
def matchesAllFilters (filters : List Filter) (req : Request) : Bool :=
  match filters with
  | [] => true
  | f0 :: rest => chainLoop req (matchesFilter req f0) f0 rest

/-- `matchesSearch`: the (already lower-cased) query is looked for in the
method, path, stringified status code, each request and response header
`"key: value"` pair, and both decoded bodies, in that order. -/
def matchesSearch (req : Request) (query : String) : Bool :=
  goContains (goToLower req.request.method) query ||
  goContains (goToLower req.request.uri) query ||
  goContains (toString req.StatusCode) query ||
  req.request.headers.any (fun p =>
    p.2.any (fun v => goContains (goToLower (p.1 ++ ": " ++ v)) query)) ||
  req.response.headers.any (fun p =>
    p.2.any (fun v => goContains (goToLower (p.1 ++ ": " ++ v)) query)) ||
  goContains (goToLower req.request.DecodeBody) query ||
  goContains (goToLower req.response.DecodeBody) query

/-- `applyFilters` (visible-set computation): the active filters narrow the
working set first (skipped when the chain is empty), then a non-empty
search query, lower-cased, narrows the remainder. -/
def applyFilters (requests : List Request) (activeFilters : List Filter)
    (searchQuery : String) : List Request :=
  let base :=
    if activeFilters ≠ [] then requests.filter (matchesAllFilters activeFilters)
    else requests
  if searchQuery ≠ "" then
    base.filter (fun r => matchesSearch r (goToLower searchQuery))
  else base

/-! ## Request store (`internal/storage`) -/

/-- Store-level failures surfaced by the storage operations. -/
inductive StoreError where
  | noActiveSession : StoreError
  | notFound : StoreError
  deriving Repr, DecidableEq

/-- A stored session row. -/
structure Session where
  id : String
  tunnelURL : String
  startedAt : Int
  endedAt : Option Int
  deriving Repr, DecidableEq

/-- A stored request row (`HistoryRequest`); `timestamp` is milliseconds on
an integer timeline. -/
structure HistoryRequest where
  id : String
  sessionID : String
  method : String
  path : String
  statusCode : Int
  durationMS : Int
  timestamp : Int
  reqHeaders : List (String × List String)
  reqBody : String
  resHeaders : List (String × List String)
  resBody : String
  starred : Bool
  deriving Repr, DecidableEq

/-- The storage state: the two SQLite tables as row lists plus the current
session pointer (`""` when no session is open). -/
structure Storage where
  sessions : List Session
  requests : List HistoryRequest
  sessionID : String
  deriving Repr, DecidableEq

/-- Milliseconds in one day (`AddDate(0,0,-keepDays)` on the linear
timeline). -/
def dayMs : Int := 86400000

/-- `Storage.SaveRequest`: with no open session fail with
`noActiveSession`; otherwise `INSERT OR REPLACE` keyed by `req.ID` — every
existing row with that id is removed and the new row (bound to the current
session) appended. -/
def Storage.SaveRequest (s : Storage) (req : HistoryRequest) :
    Except StoreError Storage :=
  if s.sessionID = "" then Except.error StoreError.noActiveSession
  else
    let row := { req with sessionID := s.sessionID }
    Except.ok { s with
      requests := s.requests.filter (fun q => q.id ≠ req.id) ++ [row] }

/-- `Storage.ToggleStar`: read the row's starred flag (unknown id is the
`sql.ErrNoRows` failure, surfaced), then update it to its negation,
returning the new value. -/
def Storage.ToggleStar (s : Storage) (requestID : String) :
    Except StoreError (Bool × Storage) :=
  match s.requests.find? (fun q => q.id = requestID) with
  | none => Except.error StoreError.notFound
  | some r =>
    let ns := !r.starred
    Except.ok (ns, { s with
      requests := s.requests.map (fun q =>
        if q.id = requestID then { q with starred := ns } else q) })

/-- `Storage.IsStarred`: read the row's starred flag; any lookup failure
(including an unknown id) is swallowed and reported as `false`. -/
def Storage.IsStarred (s : Storage) (requestID : String) : Bool :=
  match s.requests.find? (fun q => q.id = requestID) with
  | none => false
  | some r => r.starred

/-- Timestamp-descending order used by `ORDER BY timestamp DESC`. -/
def tsGE (a b : HistoryRequest) : Prop := b.timestamp ≤ a.timestamp

instance : DecidableRel tsGE := fun a b => Int.decLe b.timestamp a.timestamp

instance : IsTotal HistoryRequest tsGE := ⟨fun a b => le_total b.timestamp a.timestamp⟩

instance : IsTrans HistoryRequest tsGE := ⟨fun _ _ _ h1 h2 => le_trans h2 h1⟩

instance : IsRefl HistoryRequest tsGE := ⟨fun a => le_refl a.timestamp⟩

/-- `SELECT id FROM requests WHERE starred = FALSE ORDER BY timestamp DESC
LIMIT keepCount`: ids of the `keepCount` most recent non-starred rows. -/
def keepIds (requests : List HistoryRequest) (keepCount : Nat) : List String :=
  ((requests.filter (fun r => !r.starred)).insertionSort tsGE |>.take keepCount).map
    (fun r => r.id)

/-- `Storage.Cleanup`: delete the non-starred rows older than
`now − keepDays` whose id is not among the `keepCount` most recent
non-starred rows store-wide, then delete every session with no remaining
row. -/
def Storage.Cleanup (s : Storage) (now : Int) (keepDays keepCount : Nat) : Storage :=
  let cutoff := now - (keepDays : Int) * dayMs
  let keep := keepIds s.requests keepCount
  let requests2 := s.requests.filter (fun r =>
    !(!r.starred && (r.timestamp < cutoff : Bool) && !keep.contains r.id))
  let sessions2 := s.sessions.filter (fun sess =>
    requests2.any (fun r => r.sessionID = sess.id))
  { s with requests := requests2, sessions := sessions2 }

/-! ## Spec-side definitions (stated from the specification's words, for
refinement comparison with the code-side definitions above) -/

/-- The spec's chain evaluation: `result := eval f[0]`, then for each later
filter, `result := result OP eval f[i]` where `OP` is OR when `f[i-1]`'s
logical operator is OR and AND otherwise — written as a fold over the list
of (previous, current) pairs. -/
def chainSpecFold (eval : Filter → Bool) (f0 : Filter) (fs : List Filter) : Bool :=
  ((f0 :: fs).zip fs).foldl
    (fun result pc =>
      if pc.1.logicalOperator = "||" then result || eval pc.2
      else result && eval pc.2)
    (eval f0)

/-- The spec's visible set: `search(filter(workingSet))` — the filter chain
first, the (lower-cased) search query second. -/
def specVisibleSet (requests : List Request) (chain : List Filter)
    (query : String) : List Request :=
  (requests.filter (matchesAllFilters chain)).filter
    (fun r => matchesSearch r (goToLower query))

/-- Number of non-starred rows strictly more recent than `r`. -/
def recentRank (requests : List HistoryRequest) (r : HistoryRequest) : Nat :=
  (requests.filter (fun q => !q.starred)).countP
    (fun q => r.timestamp < q.timestamp)

/-- The spec's retention predicate: a row survives `Cleanup` iff it is
starred, or not older than the cutoff, or among the `keepCount` most recent
non-starred rows store-wide (fewer than `keepCount` non-starred rows are
more recent). -/
def specSurvives (requests : List HistoryRequest) (cutoff : Int)
    (keepCount : Nat) (r : HistoryRequest) : Bool :=
  r.starred || (cutoff ≤ r.timestamp : Bool) ||
    (recentRank requests r < keepCount : Bool)

/-! ## Concrete inputs used by witnesses and counterexamples -/

/-- A captured request whose response carries status code 500. -/
def cxReq : Request :=
  { uri := "/x", id := "cx1", duration := 0,
    request := { method := "POST", headers := [], uri := "/x", raw := "",
                 statusCode := 0, status := "" },
    response := { method := "", headers := [], uri := "", raw := "",
                  statusCode := 500, status := "" },
    responseStatus := "" }

/-- `status == 200`, linked to the next filter by AND. -/
def cxAnd200 : Filter := ⟨"status", "==", "", "200", "&&"⟩

/-- `status == 404`, linked to the next filter by OR. -/
def cxOr404 : Filter := ⟨"status", "==", "", "404", "||"⟩

/-- `status == 500`, last filter of the chain. -/
def cxLast500 : Filter := ⟨"status", "==", "", "500", ""⟩

/-- A request whose path is the lower-case `"a"`. -/
def c5Req : Request :=
  { uri := "a", id := "c5", duration := 0,
    request := { method := "GET", headers := [], uri := "a", raw := "",
                 statusCode := 0, status := "" },
    response := { method := "", headers := [], uri := "", raw := "",
                  statusCode := 200, status := "" },
    responseStatus := "" }

/-- `path == "A"`: equal to `c5Req`'s path up to case only. -/
def c5Filter : Filter := ⟨"path", "==", "", "A", ""⟩

/-- A request whose raw response body is `"!!!"`, valid under neither
base64 alphabet. -/
def c8Req : Request :=
  { uri := "/x", id := "c8", duration := 0,
    request := { method := "GET", headers := [], uri := "/x", raw := "",
                 statusCode := 0, status := "" },
    response := { method := "", headers := [], uri := "", raw := "!!!",
                  statusCode := 200, status := "" },
    responseStatus := "" }

/-- A request carrying a `Content-Type` header and no `Accept` header. -/
def c7Req : Request :=
  { uri := "/x", id := "c7", duration := 0,
    request := { method := "GET",
                 headers := [("Content-Type", ["application/json"])],
                 uri := "/x", raw := "", statusCode := 0, status := "" },
    response := { method := "", headers := [], uri := "", raw := "",
                  statusCode := 200, status := "" },
    responseStatus := "" }

/-- A store with no rows and no open session. -/
def emptyStore : Storage := ⟨[], [], ""⟩

/-- A store with an open session `"sess1"` and no rows. -/
def openStore : Storage := ⟨[], [], "sess1"⟩

/-- First saved version of row `"r1"` (body `"a"`). -/
def wReq1 : HistoryRequest :=
  ⟨"r1", "", "GET", "/", 200, 1, 0, [], "", [], "a", false⟩

/-- Second saved version of row `"r1"` (body `"b"`). -/
def wReq2 : HistoryRequest :=
  ⟨"r1", "", "POST", "/y", 201, 2, 1, [], "", [], "b", true⟩

/-- A store holding one unstarred row `"r1"`. -/
def oneRowStore : Storage :=
  ⟨[⟨"sess1", "http://t", 0, none⟩],
   [⟨"r1", "sess1", "GET", "/", 200, 1, 0, [], "", [], "a", false⟩], ""⟩

/-- An unknown-field filter exercising the default branch. -/
def bogusFilter : Filter := ⟨"bogus", "==", "", "x", "&&"⟩

/-- The `i`-th of 1500 non-starred rows: timestamp `i` (larger = more
recent), id a run of `i` copies of `r` (distinct by construction). -/
def mkReq1500 (i : Nat) : HistoryRequest :=
  ⟨String.mk (List.replicate i 'r'), "s1", "GET", "/", 200, 1, (i : Int), [],
    "", [], "", false⟩

/-- A starred row older than the cutoff. -/
def starredOld : HistoryRequest :=
  ⟨"s-star", "s1", "GET", "/", 200, 1, 5, [], "", [], "", true⟩

/-- A store with 1500 non-starred rows (timestamps `0..1499`) and one
starred row, all older than 7 days before `now1500`. -/
def store1500 : Storage :=
  ⟨[⟨"s1", "http://t", 0, none⟩],
   starredOld :: (List.range 1500).map mkReq1500, ""⟩

/-- A reference time making every row of `store1500` older than 7 days:
the cutoff `now1500 − 7 days` is 10000, above every timestamp. -/
def now1500 : Int := 7 * dayMs + 10000

/-- A two-row store for the retention witness. -/
def tinyStore : Storage :=
  ⟨[⟨"s1", "http://t", 0, none⟩],
   [⟨"a", "s1", "GET", "/", 200, 1, 0, [], "", [], "", false⟩,
    ⟨"b", "s1", "GET", "/", 200, 1, 50, [], "", [], "", false⟩], ""⟩

/-! ## Helper lemmas -/

theorem listContainsSub_nil (l : List Char) : listContainsSub l [] = true := by
cases l <;> rfl

theorem goContains_empty_right (s : String) : goContains s "" = true := by
simpa [goContains] using listContainsSub_nil s.toList

theorem matchesSearch_empty (req : Request) : matchesSearch req "" = true := by
simp [matchesSearch, goContains_empty_right]

theorem matchesAllFilters_nil (req : Request) : matchesAllFilters [] req = true := rfl

theorem goToLower_empty : goToLower "" = "" := rfl

theorem chainLoop_eq_zip_foldl (req : Request) :
    ∀ (rest : List Filter) (acc : Bool) (prev : Filter),
      chainLoop req acc prev rest =
        ((prev :: rest).zip rest).foldl
          (fun result pc =>
            if pc.1.logicalOperator = "||" then result || matchesFilter req pc.2
            else result && matchesFilter req pc.2) acc := by
intro rest
induction rest with
| nil => intro acc prev; rfl
| cons f t ih =>
  intro acc prev
  simp only [chainLoop, List.zip_cons_cons, List.foldl_cons]
  rw [ih]

theorem chainLoop_all_true (req : Request) :
    ∀ (rest : List Filter) (prev : Filter),
      (∀ f ∈ rest, matchesFilter req f = true) → chainLoop req true prev rest = true := by
intro rest
induction rest with
| nil => intro prev _; rfl
| cons f t ih =>
  intro prev h
  have hf : matchesFilter req f = true := h f (by simp)
  simp only [chainLoop, hf, Bool.or_true, Bool.and_true, ite_self]
  exact ih f (fun g hg => h g (by simp [hg]))

theorem matchesFilter_default (req : Request) (f : Filter)
    (h1 : f.field ≠ "status") (h2 : f.field ≠ "path") (h3 : f.field ≠ "duration")
    (h4 : f.field ≠ "response_size") (h5 : goStartsWith "header." f.field = false) :
    matchesFilter req f = true := by
simp [matchesFilter, h1, h2, h3, h4, h5]

theorem getHeaderValue_of_no_match (headers : List (String × List String)) (name : String)
    (h : ∀ p ∈ headers, ¬(goToLower p.1 = goToLower name ∧ p.2 ≠ [])) :
    getHeaderValue headers name = "" := by
simp only [getHeaderValue]
rw [List.find?_eq_none.mpr (fun p hp => by simpa using h p hp)]

theorem find?_header_first (name k : String) (v : String) (vs : List String)
    (post : List (String × List String)) :
    ∀ pre : List (String × List String),
      (∀ p ∈ pre, ¬(goToLower p.1 = goToLower name ∧ p.2 ≠ [])) →
      goToLower k = goToLower name →
      (pre ++ (k, v :: vs) :: post).find?
          (fun p => goToLower p.1 = goToLower name ∧ p.2 ≠ []) = some (k, v :: vs) := by
intro pre
induction pre with
| nil =>
  intro _ hk
  exact List.find?_cons_of_pos _ (by simp [hk])
| cons p t ih =>
  intro h hk
  rw [List.cons_append, List.find?_cons_of_neg _ (by simpa using h p (by simp))]
  exact ih (fun q hq => h q (by simp [hq])) hk

theorem countP_range_lt (n i : Nat) :
    (List.range n).countP (fun j => decide (i < j)) = n - (i + 1) := by
induction n with
| zero => simp
| succ n ih =>
  rw [List.range_succ, List.countP_append, ih]
  simp only [List.countP_cons, List.countP_nil]
  by_cases h : i < n <;> simp [h] <;> omega

theorem mem_take_sorted_iff (l : List HistoryRequest) (k : Nat) (r : HistoryRequest)
    (hs : List.Sorted tsGE l)
    (hd : l.Pairwise (fun a b => a.timestamp ≠ b.timestamp))
    (hr : r ∈ l) :
    r ∈ l.take k ↔ l.countP (fun q => r.timestamp < q.timestamp) < k := by
obtain ⟨l1, l2, rfl⟩ := List.append_of_mem hr
obtain ⟨hs1, hs2', hscross⟩ := List.pairwise_append.mp hs
obtain ⟨hd1, hd2', hdcross⟩ := List.pairwise_append.mp hd
have hs2 := (List.pairwise_cons.mp hs2').1
have hcount : (l1 ++ r :: l2).countP (fun q => decide (r.timestamp < q.timestamp)) =
    l1.length := by
  rw [List.countP_append, List.countP_cons]
  have hc1 : l1.countP (fun q => decide (r.timestamp < q.timestamp)) = l1.length :=
    List.countP_eq_length.mpr (fun a ha => by
      have h1 : tsGE a r := hscross a ha r (by simp)
      have h2 : a.timestamp ≠ r.timestamp := hdcross a ha r (by simp)
      simp only [decide_eq_true_eq]
      exact lt_of_le_of_ne h1 (Ne.symm h2))
  have hc2 : l2.countP (fun q => decide (r.timestamp < q.timestamp)) = 0 :=
    List.countP_eq_zero.mpr (fun a ha => by
      have h1 : tsGE r a := hs2 a ha
      simp only [decide_eq_true_eq]
      exact not_lt.mpr h1)
  simp [hc1, hc2]
rw [hcount]
constructor
· intro hmem
  by_contra hk
  push_neg at hk
  rw [List.take_append_of_le_length hk] at hmem
  have hrl1 : r ∈ l1 := List.mem_of_mem_take hmem
  exact absurd rfl (hdcross r hrl1 r (by simp))
· intro hk
  rw [List.take_append_eq_append_take]
  refine List.mem_append.mpr (Or.inr ?_)
  have hpos : k - l1.length = (k - l1.length - 1) + 1 := by omega
  rw [hpos, List.take_succ_cons]
  simp

theorem keepIds_mem_iff (requests : List HistoryRequest) (k : Nat) (r : HistoryRequest)
    (hids : (requests.map (fun q => q.id)).Nodup)
    (hts : (requests.filter (fun q => !q.starred)).Pairwise
      (fun a b => a.timestamp ≠ b.timestamp))
    (hr : r ∈ requests) (hstar : r.starred = false) :
    r.id ∈ keepIds requests k ↔ recentRank requests r < k := by
simp only [keepIds]
have hrns : r ∈ requests.filter (fun q => !q.starred) :=
  List.mem_filter.mpr ⟨hr, by simp [hstar]⟩
have hperm := List.perm_insertionSort tsGE (requests.filter (fun q => !q.starred))
have hsorted := List.sorted_insertionSort tsGE (requests.filter (fun q => !q.starred))
have hdist : ((requests.filter (fun q => !q.starred)).insertionSort tsGE).Pairwise
    (fun a b => a.timestamp ≠ b.timestamp) :=
  (hperm.pairwise_iff (fun h => h.symm)).mpr hts
have hrl : r ∈ (requests.filter (fun q => !q.starred)).insertionSort tsGE :=
  hperm.mem_iff.mpr hrns
have hiff := mem_take_sorted_iff _ k r hsorted hdist hrl
have hcnt : ((requests.filter (fun q => !q.starred)).insertionSort tsGE).countP
    (fun q => decide (r.timestamp < q.timestamp)) = recentRank requests r :=
  hperm.countP_eq _
constructor
· intro hmem
  obtain ⟨q, hq, hqid⟩ := List.mem_map.mp hmem
  have hql := List.mem_of_mem_take hq
  have hqns := hperm.mem_iff.mp hql
  have hqreq : q ∈ requests := (List.mem_filter.mp hqns).1
  have hqr : q = r := List.inj_on_of_nodup_map hids hqreq hr hqid
  rw [hqr] at hq
  rw [← hcnt]
  exact hiff.mp hq
· intro hk
  have hmem : r ∈ ((requests.filter (fun q => !q.starred)).insertionSort tsGE).take k :=
    hiff.mpr (by rw [hcnt]; exact hk)
  exact List.mem_map.mpr ⟨r, hmem, rfl⟩

theorem cleanup_characterization (s : Storage) (now : Int) (kd kc : Nat)
    (hids : (s.requests.map (fun q => q.id)).Nodup)
    (hts : (s.requests.filter (fun q => !q.starred)).Pairwise
      (fun a b => a.timestamp ≠ b.timestamp)) :
    (s.Cleanup now kd kc).requests =
      s.requests.filter (specSurvives s.requests (now - (kd : Int) * dayMs) kc) := by
simp only [Storage.Cleanup]
apply List.filter_congr
intro r hr
by_cases hstar : r.starred
· simp [hstar, specSurvives]
· have hst : r.starred = false := by simpa using hstar
  have hk := keepIds_mem_iff s.requests kc r hids hts hr hst
  have hcont : (keepIds s.requests kc).contains r.id =
      decide (recentRank s.requests r < kc) := by
    have helem : (keepIds s.requests kc).contains r.id =
        decide (r.id ∈ keepIds s.requests kc) := by
      by_cases hm : r.id ∈ keepIds s.requests kc
      · rw [decide_eq_true hm]
        exact List.elem_iff.mpr hm
      · rw [decide_eq_false hm, Bool.eq_false_iff]
        intro hcon
        exact hm (List.elem_iff.mp hcon)
    rw [helem]
    exact decide_eq_decide.mpr hk
  rw [hcont]
  by_cases h1 : r.timestamp < now - (kd : Int) * dayMs
  · by_cases h2 : recentRank s.requests r < kc <;>
      simp [specSurvives, hst, h1, h2, not_le.mpr h1]
  · have h1' : now - (kd : Int) * dayMs ≤ r.timestamp := Int.not_lt.mp h1
    by_cases h2 : recentRank s.requests r < kc <;>
      simp [specSurvives, hst, h1, h2, h1']

theorem nonStarred1500 :
    store1500.requests.filter (fun q => !q.starred) = (List.range 1500).map mkReq1500 := by
show (starredOld :: (List.range 1500).map mkReq1500).filter (fun q => !q.starred) = _
rw [List.filter_cons_of_neg (by simp [starredOld]), List.filter_map]
have hpt : List.filter ((fun q : HistoryRequest => !q.starred) ∘ mkReq1500)
    (List.range 1500) = List.filter (fun _ => true) (List.range 1500) :=
  List.filter_congr (fun j _ => by simp [mkReq1500, Function.comp])
rw [hpt, List.filter_true]

theorem rank1500 (i : Nat) :
    recentRank store1500.requests (mkReq1500 i) = 1499 - i := by
simp only [recentRank, nonStarred1500]
rw [List.countP_map]
have hfun : ((fun q : HistoryRequest => decide ((mkReq1500 i).timestamp < q.timestamp)) ∘
    mkReq1500) = fun j : Nat => decide (i < j) := by
  funext j
  simp only [Function.comp, mkReq1500]
  exact decide_eq_decide.mpr (by exact_mod_cast Iff.rfl)
rw [hfun, countP_range_lt]
omega

theorem store1500_hids : (store1500.requests.map (fun q => q.id)).Nodup := by
show ((starredOld :: (List.range 1500).map mkReq1500).map (fun q => q.id)).Nodup
rw [List.map_cons, List.map_map]
refine List.nodup_cons.mpr ⟨?_, ?_⟩
· intro hmem
  obtain ⟨j, _, heq⟩ := List.mem_map.mp hmem
  have hdata : List.replicate j 'r' = "s-star".data := congrArg String.data heq
  have hs : 's' ∈ List.replicate j 'r' := by
    rw [hdata]
    decide
  exact absurd (List.eq_of_mem_replicate hs) (by decide)
· refine List.Nodup.map ?_ (List.nodup_range 1500)
  intro a b hab
  have hdata : List.replicate a 'r' = List.replicate b 'r' :=
    congrArg String.data hab
  simpa using congrArg List.length hdata

theorem store1500_hts :
    (store1500.requests.filter (fun q => !q.starred)).Pairwise
      (fun a b => a.timestamp ≠ b.timestamp) := by
rw [nonStarred1500, List.pairwise_map]
exact (List.nodup_range 1500).imp (fun hne heq => hne (Nat.cast_injective heq))

theorem survive1500 (j : Nat) (hj : j < 1500) :
    specSurvives store1500.requests 10000 1000 (mkReq1500 j) = decide (500 ≤ j) := by
have h3 : (1499 - j < 1000) ↔ (500 ≤ j) := by omega
have h2 : ¬((10000 : ℤ) ≤ (mkReq1500 j).timestamp) :=
  show ¬((10000 : ℤ) ≤ (j : ℤ)) by omega
have h1 : (mkReq1500 j).starred = false := rfl
simp only [specSurvives, rank1500, h1, decide_eq_false h2, decide_eq_decide.mpr h3]
simp

theorem cleanup1500_requests :
    (store1500.Cleanup now1500 7 1000).requests =
      starredOld :: ((List.range 1500).filter (fun i => decide (500 ≤ i))).map mkReq1500 := by
rw [cleanup_characterization store1500 now1500 7 1000 store1500_hids store1500_hts]
have hcut : now1500 - ((7 : ℕ) : ℤ) * dayMs = 10000 := by decide
rw [hcut]
have hpred : ∀ r ∈ store1500.requests,
    specSurvives store1500.requests 10000 1000 r =
      (r.starred || decide ((500 : ℤ) ≤ r.timestamp)) := by
  intro r hr
  have hr' : r = starredOld ∨ ∃ j, j ∈ List.range 1500 ∧ mkReq1500 j = r := by
    simpa [store1500, List.mem_cons, List.mem_map] using hr
  rcases hr' with rfl | ⟨j, hj, rfl⟩
  · simp [specSurvives, starredOld]
  · rw [survive1500 j (List.mem_range.mp hj)]
    simp only [mkReq1500, Bool.false_or]
    exact (decide_eq_decide.mpr (by exact_mod_cast Iff.rfl)).symm
rw [List.filter_congr hpred]
show (starredOld :: (List.range 1500).map mkReq1500).filter
    (fun r => r.starred || decide ((500 : ℤ) ≤ r.timestamp)) = _
rw [List.filter_cons_of_pos (by simp [starredOld]), List.filter_map]
refine congrArg _ (congrArg _ (List.filter_congr (fun j _ => ?_)))
simp only [Function.comp, mkReq1500, Bool.false_or]
exact decide_eq_decide.mpr (by exact_mod_cast Iff.rfl)

theorem cleanup1500_length :
    (store1500.Cleanup now1500 7 1000).requests.length = 1001 := by
rw [cleanup1500_requests]
simp only [List.length_cons, List.length_map]
rw [← List.countP_eq_length_filter]
have hcc : List.countP (fun i => decide (500 ≤ i)) (List.range 1500) =
    List.countP (fun j => decide (499 < j)) (List.range 1500) :=
  List.countP_congr (fun j _ => by simp only [decide_eq_true_eq]; omega)
rw [hcc, countP_range_lt]

theorem cleanup1500_mem (i : Nat) (hi : i < 1500) :
    mkReq1500 i ∈ (store1500.Cleanup now1500 7 1000).requests ↔ 500 ≤ i := by
rw [cleanup1500_requests]
simp only [List.mem_cons, List.mem_map, List.mem_filter, List.mem_range]
constructor
· rintro (h | ⟨j, ⟨hj1, hj2⟩, hj3⟩)
  · have hfa : (mkReq1500 i).starred = starredOld.starred := congrArg _ h
    rw [show (mkReq1500 i).starred = false from rfl,
      show starredOld.starred = true from rfl] at hfa
    exact absurd hfa (by decide)
  · have hji : j = i := Nat.cast_injective (congrArg HistoryRequest.timestamp hj3)
    rw [hji] at hj2
    simpa using hj2
· intro h
  exact Or.inr ⟨i, ⟨hi, by simpa using h⟩, rfl⟩

theorem cleanup1500_starred :
    starredOld ∈ (store1500.Cleanup now1500 7 1000).requests := by
rw [cleanup1500_requests]
exact List.mem_cons_self _ _

/-! ## Claim theorems -/

/-- C1: For every request and every non-empty filter chain, `matchesAllFilters`
equals the strict left-to-right fold `result := eval f[0]`, then
`result := result OP eval f[i]` driven by `f[i-1]`'s logical operator, with
no precedence or grouping: `f1 AND f2 OR f3` always evaluates as
`(f1 AND f2) OR f3` (second conjunct), and that differs from
`f1 AND (f2 OR f3)` on a concrete input (third conjunct). -/
theorem chain_is_left_to_right_fold :
    (∀ (req : Request) (f0 : Filter) (fs : List Filter),
      matchesAllFilters (f0 :: fs) req = chainSpecFold (matchesFilter req) f0 fs) ∧
    (∀ (req : Request) (f1 f2 f3 : Filter),
      f1.logicalOperator ≠ "||" → f2.logicalOperator = "||" →
      matchesAllFilters [f1, f2, f3] req =
        ((matchesFilter req f1 && matchesFilter req f2) || matchesFilter req f3)) ∧
    (matchesAllFilters [cxAnd200, cxOr404, cxLast500] cxReq = true ∧
      (matchesFilter cxReq cxAnd200 &&
        (matchesFilter cxReq cxOr404 || matchesFilter cxReq cxLast500)) = false) := by
refine ⟨?_, ?_, by decide, by decide⟩
· intro req f0 fs
  simp only [matchesAllFilters, chainSpecFold]
  exact chainLoop_eq_zip_foldl req fs (matchesFilter req f0) f0
· intro req f1 f2 f3 h1 h2
  simp [matchesAllFilters, chainLoop, h1, h2]

/-- C1 witness: the fold-shape equation instantiated on the concrete
`status==200 AND status==404 OR status==500` chain. -/
theorem chain_is_left_to_right_fold_witness :
    matchesAllFilters [cxAnd200, cxOr404, cxLast500] cxReq =
      ((matchesFilter cxReq cxAnd200 && matchesFilter cxReq cxOr404) ||
        matchesFilter cxReq cxLast500) :=
chain_is_left_to_right_fold.2.1 cxReq cxAnd200 cxOr404 cxLast500 (by decide) (by decide)

/-- C2: the visible set is `search(filter(workingSet))` — the filter chain
first, the search query second — and with an empty chain and empty query it
is the working set itself, in order. -/
theorem visible_set_is_search_after_filter :
    (∀ (requests : List Request) (chain : List Filter) (query : String),
      applyFilters requests chain query = specVisibleSet requests chain query) ∧
    (∀ requests : List Request, applyFilters requests [] "" = requests) := by
constructor
· intro requests chain query
  by_cases hc : chain = [] <;> by_cases hq : query = "" <;>
    simp [applyFilters, specVisibleSet, hc, hq, matchesAllFilters_nil,
      goToLower_empty, matchesSearch_empty]
· intro requests
  simp [applyFilters]

/-- C10: a filter whose field is none of the four dispatched ones and does
not start with `header.` hits the default branch and matches every request,
and a chain of only such filters leaves the working set unchanged. -/
theorem unknown_field_matches_everything :
    (∀ (req : Request) (f : Filter),
      f.field ≠ "status" → f.field ≠ "path" → f.field ≠ "duration" →
      f.field ≠ "response_size" → goStartsWith "header." f.field = false →
      matchesFilter req f = true) ∧
    (∀ (requests : List Request) (chain : List Filter),
      (∀ f ∈ chain, f.field ≠ "status" ∧ f.field ≠ "path" ∧ f.field ≠ "duration" ∧
        f.field ≠ "response_size" ∧ goStartsWith "header." f.field = false) →
      applyFilters requests chain "" = requests) := by
constructor
· exact fun req f h1 h2 h3 h4 h5 => matchesFilter_default req f h1 h2 h3 h4 h5
· intro requests chain h
  have hm : ∀ req, matchesAllFilters chain req = true := by
    intro req
    cases chain with
    | nil => rfl
    | cons f0 t =>
      obtain ⟨a, b, c, d, e⟩ := h f0 (by simp)
      simp only [matchesAllFilters, matchesFilter_default req f0 a b c d e]
      exact chainLoop_all_true req t f0 (fun g hg => by
        obtain ⟨a', b', c', d', e'⟩ := h g (by simp [hg])
        exact matchesFilter_default req g a' b' c' d' e')
  have hfil : requests.filter (matchesAllFilters chain) = requests :=
    List.filter_eq_self.mpr (fun r _ => hm r)
  by_cases hc : chain = [] <;> simp [applyFilters, hc, hfil]

/-- C10 witness: a `bogus`-field filter matches the concrete request. -/
theorem unknown_field_matches_everything_witness :
    matchesFilter cxReq bogusFilter = true :=
unknown_field_matches_everything.1 cxReq bogusFilter (by decide) (by decide) (by decide)
  (by decide) (by decide)

/-- C5 counterexample: `==` is not case-insensitive — the `path == "A"`
filter rejects a request whose path is `"a"`, although the two sides agree
after lower-casing. -/
theorem string_eq_not_case_insensitive :
    matchesFilter c5Req c5Filter = false ∧
    goToLower c5Req.request.uri = goToLower c5Filter.value := by
exact ⟨by decide, by decide⟩

/-- C5 amended: `==`/`!=` are case-SENSITIVE equality/inequality while
`match`/`!match` are case-insensitive substring containment/negation
(applying to status, path and `header.<name>` filters); a filter on the
field `method` is never dispatched to the string comparator and matches
every request. -/
theorem string_operator_semantics :
    (∀ val target : String,
      compareStringOp val "==" target = decide (val = target) ∧
      compareStringOp val "!=" target = !decide (val = target) ∧
      compareStringOp val "match" target =
        goContains (goToLower val) (goToLower target) ∧
      compareStringOp val "!match" target =
        !goContains (goToLower val) (goToLower target)) ∧
    (∀ (req : Request) (f : Filter), f.field = "method" → matchesFilter req f = true) := by
constructor
· intro val target
  refine ⟨by simp [compareStringOp], by simp [compareStringOp, decide_not], ?_, ?_⟩ <;>
    simp [compareStringOp]
· intro req f h
  exact matchesFilter_default req f (by rw [h]; decide) (by rw [h]; decide)
    (by rw [h]; decide) (by rw [h]; decide) (by rw [h]; decide)

/-- C5 witness: a `method == GET` filter matches a POST request. -/
theorem string_operator_semantics_witness :
    matchesFilter cxReq ⟨"method", "==", "", "GET", ""⟩ = true :=
string_operator_semantics.2 cxReq ⟨"method", "==", "", "GET", ""⟩ rfl

/-- C6: a numeric-field literal that fails to parse makes the predicate
false for every request, operator and unit — on both `duration` and
`response_size`, at the comparator and at the filter-dispatch level. -/
theorem numeric_parse_failure_is_fail_closed :
    ∀ (req : Request) (f : Filter), goParseFloat f.value = none →
      (∀ q : ℚ, compareDuration q f.operator f.unit f.value = false) ∧
      (∀ n : Nat, compareSize n f.operator f.unit f.value = false) ∧
      (f.field = "duration" → matchesFilter req f = false) ∧
      (f.field = "response_size" → matchesFilter req f = false) := by
intro req f h
have hd : ∀ q : ℚ, compareDuration q f.operator f.unit f.value = false := by
  intro q; simp [compareDuration, h]
have hs : ∀ n : Nat, compareSize n f.operator f.unit f.value = false := by
  intro n; simp [compareSize, h]
refine ⟨hd, hs, ?_, ?_⟩
· intro hf
  unfold matchesFilter
  rw [hf, if_neg (by decide), if_neg (by decide), if_pos rfl]
  exact hd _
· intro hf
  unfold matchesFilter
  rw [hf, if_neg (by decide), if_neg (by decide), if_neg (by decide), if_pos rfl]
  exact hs _

/-- C6 witness: the literal `"abc"` parses as no number and the `duration`
and `response_size` filters built from it reject the concrete request. -/
theorem numeric_parse_failure_is_fail_closed_witness :
    compareDuration (1 : ℚ) ">" "ms" "abc" = false ∧
    matchesFilter cxReq ⟨"duration", ">", "ms", "abc", ""⟩ = false ∧
    matchesFilter cxReq ⟨"response_size", ">", "b", "abc", ""⟩ = false := by
refine ⟨(numeric_parse_failure_is_fail_closed cxReq ⟨"duration", ">", "ms", "abc", ""⟩
    (by decide)).1 1,
  (numeric_parse_failure_is_fail_closed cxReq ⟨"duration", ">", "ms", "abc", ""⟩
    (by decide)).2.2.1 rfl,
  (numeric_parse_failure_is_fail_closed cxReq ⟨"response_size", ">", "b", "abc", ""⟩
    (by decide)).2.2.2 rfl⟩

/-- C7: header lookup is case-insensitive and takes the first value of the
first matching key; an absent header yields the empty string, so
`header.accept == ""` matches every request with no `Accept` header. -/
theorem header_lookup_semantics :
    (∀ (headers : List (String × List String)) (name : String),
      (∀ p ∈ headers, goToLower p.1 ≠ goToLower name) →
      getHeaderValue headers name = "") ∧
    (∀ (pre post : List (String × List String)) (k name v : String) (vs : List String),
      (∀ p ∈ pre, ¬(goToLower p.1 = goToLower name ∧ p.2 ≠ [])) →
      goToLower k = goToLower name →
      getHeaderValue (pre ++ (k, v :: vs) :: post) name = v) ∧
    (∀ (req : Request) (f : Filter),
      f.field = "header.accept" → f.operator = "==" → f.value = "" →
      (∀ p ∈ req.request.headers, goToLower p.1 ≠ "accept") →
      matchesFilter req f = true) := by
refine ⟨?_, ?_, ?_⟩
· intro headers name h
  exact getHeaderValue_of_no_match headers name
    (fun p hp hc => h p hp hc.1)
· intro pre post k name v vs h hk
  simp only [getHeaderValue]
  rw [find?_header_first name k v vs post pre h hk]
  rfl
· intro req f hf hop hval h
  unfold matchesFilter
  rw [hf, hop, hval, if_neg (by decide), if_neg (by decide), if_neg (by decide),
    if_neg (by decide), if_pos (by decide)]
  have hlook : getHeaderValue req.request.headers (goDrop "header.accept" 7) = "" := by
    have h7 : goDrop "header.accept" 7 = "accept" := by decide
    rw [h7]
    exact getHeaderValue_of_no_match _ _ (fun p hp hc => h p hp (by simpa using hc.1))
  rw [hlook]
  rfl

/-- C7 witness: a request with only a `Content-Type` header satisfies the
`header.accept == ""` filter, and the first-value lookup picks the first
value of a case-insensitively matched key. -/
theorem header_lookup_semantics_witness :
    matchesFilter c7Req ⟨"header.accept", "==", "", "", ""⟩ = true ∧
    getHeaderValue [("X-A", []), ("ACCept", ["v1", "v2"])] "Accept" = "v1" := by
refine ⟨header_lookup_semantics.2.2 c7Req ⟨"header.accept", "==", "", "", ""⟩
  rfl rfl rfl (by decide), ?_⟩
exact header_lookup_semantics.2.1 [("X-A", [])] [] "ACCept" "Accept" "v1" ["v2"]
  (by decide) (by decide)

/-- C8 counterexample: `"!!!"` decodes under neither base64 alphabet, yet
the measured response size is 3 = len("!!!"), not 0. -/
theorem decode_failure_size_not_zero :
    goBase64Decode false c8Req.response.raw = none ∧
    goBase64Decode true c8Req.response.raw = none ∧
    c8Req.ResponseSize = 3 ∧ c8Req.ResponseSize ≠ 0 := by
exact ⟨by decide, by decide, by decide, by decide⟩

/-- C8 amended: when the raw response body fails to decode under both
base64 alphabets, the raw value is used verbatim as the body, so the
measured response size is the raw value's length (not 0). -/
theorem decode_failure_size_is_raw_length :
    ∀ r : Request, goBase64Decode false r.response.raw = none →
      goBase64Decode true r.response.raw = none →
      r.ResponseSize = r.response.raw.length := by
intro r h1 h2
have hne : r.response.raw ≠ "" := by
  intro he
  rw [he] at h1
  exact absurd h1 (by decide)
unfold Request.ResponseSize HTTPData.DecodeBody
rw [if_neg hne, h1, h2]

/-- C8 witness: the amended size rule evaluated at the `"!!!"` request. -/
theorem decode_failure_size_is_raw_length_witness :
    c8Req.ResponseSize = c8Req.response.raw.length :=
decode_failure_size_is_raw_length c8Req (by decide) (by decide)

/-- C9 counterexample: on an unknown id, `ToggleStar` does fail with the
not-found error, but `IsStarred` does not fail — it returns the default
value `false` (the store is empty, so `"missing"` is certainly unknown). -/
theorem is_starred_swallows_not_found :
    emptyStore.requests = [] ∧
    Storage.ToggleStar emptyStore "missing" = Except.error StoreError.notFound ∧
    Storage.IsStarred emptyStore "missing" = false := by
exact ⟨rfl, rfl, rfl⟩

/-- C9 amended: `ToggleStar` flips the flag and fails with `NotFound` on an
unknown id; `IsStarred` reads the flag of a present id but swallows the
lookup failure for an unknown id and returns the default `false`. -/
theorem star_operations_semantics :
    (∀ (s : Storage) (rid : String),
      s.requests.find? (fun q => q.id = rid) = none →
      s.ToggleStar rid = Except.error StoreError.notFound ∧
      s.IsStarred rid = false) ∧
    (∀ (s : Storage) (rid : String) (r : HistoryRequest),
      s.requests.find? (fun q => q.id = rid) = some r →
      s.IsStarred rid = r.starred ∧
      ∃ s2 : Storage, s.ToggleStar rid = Except.ok (!r.starred, s2) ∧
        s2.IsStarred rid = !r.starred) := by
constructor
· intro s rid h
  constructor
  · unfold Storage.ToggleStar
    rw [h]
  · unfold Storage.IsStarred
    rw [h]
· intro s rid r h
  have hid : r.id = rid := by simpa using List.find?_some h
  constructor
  · unfold Storage.IsStarred
    rw [h]
  · refine ⟨{ s with requests := s.requests.map (fun q =>
      if q.id = rid then { q with starred := !r.starred } else q) }, ?_, ?_⟩
    · unfold Storage.ToggleStar
      rw [h]
    · unfold Storage.IsStarred
      have hcomp : (fun q : HistoryRequest => decide (q.id = rid)) ∘
          (fun q : HistoryRequest =>
            if q.id = rid then { q with starred := !r.starred } else q) =
          fun q : HistoryRequest => decide (q.id = rid) := by
        funext q
        by_cases hq : q.id = rid <;> simp [hq]
      rw [List.find?_map, hcomp, h]
      simp [hid]

/-- C9 witness: the amended semantics evaluated on the one-row store. -/
theorem star_operations_semantics_witness :
    Storage.IsStarred oneRowStore "r1" = false ∧
    ∃ s2 : Storage, Storage.ToggleStar oneRowStore "r1" = Except.ok (true, s2) ∧
      s2.IsStarred "r1" = true :=
star_operations_semantics.2 oneRowStore "r1"
  ⟨"r1", "sess1", "GET", "/", 200, 1, 0, [], "", [], "a", false⟩ (by decide)

/-- C4: `SaveRequest` with no open session fails with `NoActiveSession`;
with an open session it is an upsert keyed by the request id — saving `r1`
and then `r2` with the same id leaves exactly the single row built from
`r2` (bound to the open session) as the rows with that id. -/
theorem save_request_is_upsert :
    (∀ (s : Storage) (req : HistoryRequest),
      s.sessionID = "" → s.SaveRequest req = Except.error StoreError.noActiveSession) ∧
    (∀ (s : Storage) (r1 r2 : HistoryRequest),
      s.sessionID ≠ "" → r2.id = r1.id →
      ∃ s1 s2 : Storage, s.SaveRequest r1 = Except.ok s1 ∧
        s1.SaveRequest r2 = Except.ok s2 ∧
        s2.requests.filter (fun q => q.id = r1.id) =
          [{ r2 with sessionID := s.sessionID }]) := by
constructor
· intro s req h
  unfold Storage.SaveRequest
  rw [if_pos h]
· intro s r1 r2 hs hid
  refine ⟨{ s with requests :=
      s.requests.filter (fun q : HistoryRequest => q.id ≠ r1.id) ++
      [{ r1 with sessionID := s.sessionID }] },
    { s with requests :=
        ((s.requests.filter (fun q : HistoryRequest => q.id ≠ r1.id) ++
          [{ r1 with sessionID := s.sessionID }]).filter
            (fun q : HistoryRequest => q.id ≠ r2.id)) ++
        [{ r2 with sessionID := s.sessionID }] }, ?_, ?_, ?_⟩
  · unfold Storage.SaveRequest
    rw [if_neg hs]
  · unfold Storage.SaveRequest
    rw [if_neg hs]
  · rw [List.filter_append, List.filter_filter]
    have h1 : (List.filter
        (fun a => decide (a.id = r1.id) && decide (a.id ≠ r2.id))
        (s.requests.filter (fun q => q.id ≠ r1.id) ++ [{ r1 with sessionID := s.sessionID }])) =
        [] := by
      rw [List.filter_eq_nil_iff]
      intro a _
      rw [hid]
      simp only [Bool.and_eq_true, decide_eq_true_eq]
      rintro ⟨h1, h2⟩
      exact h2 h1
    rw [h1]
    simp [hid]

/-- C4 witness: saving `"r1"` with body `"a"` then with body `"b"` on a
store with an open session leaves exactly the one latest row for `"r1"`. -/
theorem save_request_is_upsert_witness :
    ∃ s1 s2 : Storage, openStore.SaveRequest wReq1 = Except.ok s1 ∧
      s1.SaveRequest wReq2 = Except.ok s2 ∧
      s2.requests.filter (fun q => q.id = wReq1.id) =
        [{ wReq2 with sessionID := openStore.sessionID }] :=
save_request_is_upsert.2 openStore wReq1 wReq2 (by decide) (by decide)

/-- C3: `Cleanup` deletes exactly the non-starred rows older than
`now − keepDays` that are not among the `keepCount` most recent non-starred
rows store-wide, then deletes every session left with zero rows; starred
rows always survive.  In particular, over 1500 expired non-starred rows,
`Cleanup(7, 1000)` retains exactly the 1000 newest (deleting the 500
oldest), and a starred row older than 7 days survives. (Hypotheses: row ids
are unique — the table's primary key — and the non-starred timestamps are
distinct, which makes "the keepCount most recent" well defined.) -/
theorem cleanup_retention_policy :
    (∀ (s : Storage) (now : Int) (kd kc : Nat),
      (s.requests.map (fun q => q.id)).Nodup →
      ((s.requests.filter (fun q => !q.starred)).Pairwise
        (fun a b => a.timestamp ≠ b.timestamp)) →
      (s.Cleanup now kd kc).requests =
        s.requests.filter (specSurvives s.requests (now - (kd : Int) * dayMs) kc) ∧
      (s.Cleanup now kd kc).sessions =
        s.sessions.filter (fun sess =>
          (s.Cleanup now kd kc).requests.any (fun r => r.sessionID = sess.id)) ∧
      (∀ r ∈ s.requests, r.starred = true → r ∈ (s.Cleanup now kd kc).requests)) ∧
    ((store1500.Cleanup now1500 7 1000).requests.length = 1001 ∧
      (∀ i < 1500, (mkReq1500 i ∈ (store1500.Cleanup now1500 7 1000).requests ↔ 500 ≤ i)) ∧
      starredOld ∈ (store1500.Cleanup now1500 7 1000).requests) := by
refine ⟨?_, cleanup1500_length, fun i hi => cleanup1500_mem i hi, cleanup1500_starred⟩
intro s now kd kc hids hts
refine ⟨cleanup_characterization s now kd kc hids hts, rfl, ?_⟩
intro r hr hstar
rw [cleanup_characterization s now kd kc hids hts]
exact List.mem_filter.mpr ⟨hr, by simp [specSurvives, hstar]⟩

/-- C3 witness: the survival characterization instantiated on the two-row
store, with both side conditions discharged by computation. -/
theorem cleanup_retention_policy_witness :
    (tinyStore.Cleanup 100 0 1).requests =
      tinyStore.requests.filter
        (specSurvives tinyStore.requests (100 - ((0 : ℕ) : ℤ) * dayMs) 1) :=
(cleanup_retention_policy.1 tinyStore 100 0 1 (by decide) (by decide)).1

end Mole
